import Mathlib

/-!
Verification of the playback-state synchronization engine of sync-jukebox
(`internal/state/state.go`), as a shallow embedding in Lean 4.

Modelling conventions:
- Go machine integers (`int`, `int64`) are modelled as `Int`; Go's `%` on
  `Int` is truncated division, i.e. `Int.tmod`.
- The mutable `GlobalState` is passed explicitly; each command is a pure
  function from the pre-state to a result carrying the post-state.
- Side effects are reified: every broadcast to the websocket hub appends
  the broadcast snapshot to `Effects.broadcasts`, and every *successful*
  persistence write appends its key to `Effects.dbWrites`.
- Persistence failure is modelled by a boolean `dbOK` given to each
  command: when `dbOK = false` every durable write fails (and is hence
  not recorded); the code's handling of the returned error is embedded
  faithfully (mostly ignored, except where the Go code checks it).
- A Go `panic` (out-of-range slice index) is modelled as `Option.none`;
  fallible commands return a `CmdResult` whose `err` field mirrors the
  Go `error` return value.
-/

namespace Jukebox

/-- Model of `db.Song` (internal/db): the track summary referenced by the playlist. -/
structure Song where
  id : String
  title : String
  artist : String
  album : String
  durationMs : Int
  deriving Repr, DecidableEq

/-- Model of `db.PlaylistItem`: one playlist entry.  `song` is `*db.Song` (nilable). -/
structure PlaylistItem where
  songID : String
  order : Int
  song : Option Song
  deriving Repr, DecidableEq

/-- Model of `state.GlobalState`: the canonical playback state.  `LastUpdate` is a
wall-clock timestamp used only for elapsed-time extrapolation and is not
modelled; `PlayMode` is never read by the operations under verification. -/
structure GlobalState where
  isPlaying : Bool
  currentSongID : String
  currentSong : Option Song
  playlist : List PlaylistItem
  currentPlaylistIdx : Int
  progressMs : Int
  deriving Repr, DecidableEq

/-- Reified side effects of one command: hub broadcasts (each entry is the
snapshot handed to `hub.Broadcast`) and the keys of the durable writes that
succeeded. -/
structure Effects where
  broadcasts : List GlobalState
  dbWrites : List String
  deriving Repr, DecidableEq

def noFx : Effects := ⟨[], []⟩

instance : Append Effects :=
  ⟨fun a b => ⟨a.broadcasts ++ b.broadcasts, a.dbWrites ++ b.dbWrites⟩⟩

@[simp] theorem Effects.append_def (a b : Effects) :
    a ++ b = ⟨a.broadcasts ++ b.broadcasts, a.dbWrites ++ b.dbWrites⟩ := rfl

/-- One `db.SetSystemState key _` / `db.UpdatePlaylist` call: the key is
recorded when the write succeeds. -/
def writeKey (dbOK : Bool) (key : String) : List String :=
  if dbOK then [key] else []

/-- Result of a fallible command: the Go `error` return (`none` = nil),
the post-state, and the effects that occurred. -/
structure CmdResult where
  err : Option String
  state : GlobalState
  fx : Effects
  deriving Repr, DecidableEq

/-- Model of `Manager.changeSong(playlistIndex)`, the shared switch-to-index routine.
Reads `Playlist[playlistIndex]` (panic = `none` when out of range), sets the
current index/id/track, zeroes the progress, forces `isPlaying` to `true`
(starting the ticker if it was paused), persists the four scalars and
broadcasts. -/
def changeSong (dbOK : Bool) (st : GlobalState) (i : Int) :
    Option (GlobalState × Effects) :=
  match st.playlist.get? i.toNat with
  | none => none
  | some item =>
    if i < 0 then none
    else
      let st1 : GlobalState :=
        { st with currentPlaylistIdx := i, currentSongID := item.songID,
                  currentSong := item.song, progressMs := 0, isPlaying := true }
      some (st1,
        ⟨[st1],
         writeKey dbOK "current_song_id" ++ writeKey dbOK "progress_ms" ++
         writeKey dbOK "last_update_unix" ++ writeKey dbOK "is_playing"⟩)

/-- Model of `Manager.stopPlayback()`: clears playback (no current song, progress 0,
not playing), persists three scalars and broadcasts. -/
def stopPlayback (dbOK : Bool) (st : GlobalState) : GlobalState × Effects :=
  let st1 : GlobalState :=
    { st with isPlaying := false, currentSongID := "", currentSong := none,
              progressMs := 0 }
  (st1,
    ⟨[st1],
     writeKey dbOK "is_playing" ++ writeKey dbOK "current_song_id" ++
     writeKey dbOK "progress_ms"⟩)

/-- Model of `Manager.NextSong()`: an empty playlist stops playback; otherwise switches
to `(CurrentPlaylistIdx + 1) % len(Playlist)` (Go truncated `%`). -/
def NextSong (dbOK : Bool) (st : GlobalState) : Option (GlobalState × Effects) :=
  if st.playlist.length = 0 then some (stopPlayback dbOK st)
  else
    changeSong dbOK st ((st.currentPlaylistIdx + 1).tmod st.playlist.length)

/-- Model of `Manager.PrevSong()`: an empty playlist stops playback; otherwise switches
to `(CurrentPlaylistIdx - 1 + len(Playlist)) % len(Playlist)`. -/
def PrevSong (dbOK : Bool) (st : GlobalState) : Option (GlobalState × Effects) :=
  if st.playlist.length = 0 then some (stopPlayback dbOK st)
  else
    changeSong dbOK st
      ((st.currentPlaylistIdx - 1 + st.playlist.length).tmod st.playlist.length)

/-- First index of `songID` in the playlist (the Go linear scan with `-1`
sentinel, given as an `Option Nat`). -/
def findSongIdx (pl : List PlaylistItem) (songID : String) : Option Nat :=
  pl.findIdx? (fun item => item.songID == songID)

/-- Model of `Manager.PlaySpecificSong(songID)`: a `NotFound` error when the id is not
in the playlist, otherwise switches to its index (restarting even when it is
already the current track). -/
def PlaySpecificSong (dbOK : Bool) (st : GlobalState) (songID : String) :
    Option CmdResult :=
  match findSongIdx st.playlist songID with
  | none => some ⟨some "song not found in playlist", st, noFx⟩
  | some i =>
    (changeSong dbOK st (i : Int)).map (fun r => ⟨none, r.1, r.2⟩)

/-- Step 4 of `Manager.ReorderPlaylist`: rewrite every `Order` field to the
entry's index in the slice. -/
def reindexOrders (pl : List PlaylistItem) : List PlaylistItem :=
  pl.enum.map (fun p => { p.2 with order := (p.1 : Int) })

/-- The in-memory mutation of `Manager.ReorderPlaylist` once the entry has
been located at `oldIndex`: remove-and-reinsert of the entry at `newIndex`,
the three-way current-index fixup (two sequential `if`s in the source), and
the dense `Order` rewrite. -/
def reorderApply (st : GlobalState) (songID : String) (newIndex : Int)
    (oldIndex : Nat) (item : PlaylistItem) : GlobalState :=
  let temp := st.playlist.take oldIndex ++ st.playlist.drop (oldIndex + 1)
  let n := newIndex.toNat
  let newPl := temp.take n ++ [item] ++ temp.drop n
  let idx1 : Int :=
    if st.currentSongID = songID then newIndex
    else
      let c := st.currentPlaylistIdx
      let c1 := if (oldIndex : Int) < c ∧ c ≤ newIndex then c - 1 else c
      if c1 < (oldIndex : Int) ∧ newIndex ≤ c1 then c1 + 1 else c1
  { st with playlist := reindexOrders newPl, currentPlaylistIdx := idx1 }

/-- Model of `Manager.ReorderPlaylist(songID, newIndex)`: out-of-bounds check, find
the song, no-op when the index is unchanged, the in-memory mutation
(`reorderApply`), then the DB write — whose failure is returned as the
command's error WITHOUT broadcasting. -/
def ReorderPlaylist (dbOK : Bool) (st : GlobalState) (songID : String)
    (newIndex : Int) : Option CmdResult :=
  if newIndex < 0 ∨ (st.playlist.length : Int) ≤ newIndex then
    some ⟨some "newIndex out of bounds", st, noFx⟩
  else
    match findSongIdx st.playlist songID with
    | none => some ⟨some "song not found in playlist", st, noFx⟩
    | some oldIndex =>
      if (oldIndex : Int) = newIndex then some ⟨none, st, noFx⟩
      else
        match st.playlist.get? oldIndex with
        | none => none
        | some item =>
          if dbOK then
            some ⟨none, reorderApply st songID newIndex oldIndex item,
              ⟨[reorderApply st songID newIndex oldIndex item], ["playlist"]⟩⟩
          else
            some ⟨some "db update failed",
              reorderApply st songID newIndex oldIndex item, noFx⟩

/-- Model of `Manager.AddToPlaylist(songID)`: a `db.GetSong` lookup against the library
(`NotFound` when absent), idempotent when already queued, append with
`Order = len`, full-playlist DB write (error ignored), auto-`changeSong(0)`
when this is the first entry, final broadcast. -/
def AddToPlaylist (library : List Song) (dbOK : Bool) (st : GlobalState)
    (songID : String) : Option CmdResult :=
  match library.find? (fun s => s.id == songID) with
  | none => some ⟨some "song not found", st, noFx⟩
  | some song =>
    if st.playlist.any (fun item => item.songID == songID) then
      some ⟨none, st, noFx⟩
    else
      if ({ st with playlist := st.playlist ++
            [⟨songID, (st.playlist.length : Int), some song⟩] } :
          GlobalState).playlist.length = 1 then
        (changeSong dbOK
            { st with playlist := st.playlist ++
              [⟨songID, (st.playlist.length : Int), some song⟩] } 0).map
          (fun r => ⟨none, r.1,
            ⟨[], writeKey dbOK "playlist"⟩ ++ r.2 ++ ⟨[r.1], []⟩⟩)
      else
        some ⟨none,
          { st with playlist := st.playlist ++
            [⟨songID, (st.playlist.length : Int), some song⟩] },
          ⟨[], writeKey dbOK "playlist"⟩ ++
            ⟨[{ st with playlist := st.playlist ++
              [⟨songID, (st.playlist.length : Int), some song⟩] }], []⟩⟩

/-- The guard of `Manager.RemoveFromPlaylist`: the removed song is the
current one, checked via `CurrentSong != nil && CurrentSong.ID == songID`. -/
def removeIsCurrent (st : GlobalState) (songID : String) : Bool :=
  match st.currentSong with
  | some s => s.id == songID
  | none => false

/-- Model of `Manager.RemoveFromPlaylist(songID)`: when the removed song is the
current one, first runs `NextSong()` — while the song is still in the list;
then the DB delete (whose failure aborts with the error, the `NextSong`
mutation standing); then filters the entry out of the in-memory playlist.
No broadcast of its own, no `Order` rewrite. -/
def RemoveFromPlaylist (dbOK : Bool) (st : GlobalState) (songID : String) :
    Option CmdResult :=
  (if removeIsCurrent st songID then NextSong dbOK st
   else some (st, noFx)).bind (fun r =>
    if dbOK then
      some ⟨none,
        { r.1 with playlist :=
            r.1.playlist.filter (fun item => item.songID != songID) },
        r.2 ++ ⟨[], ["remove_song"]⟩⟩
    else some ⟨some "db remove failed", r.1, r.2⟩)

/-- Model of `Manager.Seek(positionMs)`: an `InvalidState` error when there is no current
song; clamp below at 0, clamp above at the duration when it is positive;
set the progress; persist (errors ignored) and broadcast unconditionally. -/
def Seek (dbOK : Bool) (st : GlobalState) (positionMs : Int) : CmdResult :=
  match st.currentSong with
  | none => ⟨some "no song is currently playing", st, noFx⟩
  | some song =>
    let p1 := if positionMs < 0 then 0 else positionMs
    let p2 := if song.durationMs > 0 ∧ song.durationMs < p1 then song.durationMs else p1
    let st1 : GlobalState := { st with progressMs := p2 }
    ⟨none, st1,
      ⟨[st1], writeKey dbOK "progress_ms" ++ writeKey dbOK "last_update_unix"⟩⟩

/-- One iteration of the body of `startProgressTicker`'s goroutine: exit
without mutation when not playing; else add 1000 ms of progress; when a
current song exists and the progress has reached its duration, run the
`NextSong`-style switch (or stop when the playlist is empty); in every
playing case finish with the loop's own broadcast of the final state. -/
def tick (dbOK : Bool) (st : GlobalState) : Option (GlobalState × Effects) :=
  if !st.isPlaying then some (st, noFx)
  else
    let st1 : GlobalState := { st with progressMs := st.progressMs + 1000 }
    let switched : Option (GlobalState × Effects) :=
      match st1.currentSong with
      | some song =>
        if song.durationMs ≤ st1.progressMs then
          if 0 < st1.playlist.length then
            changeSong dbOK st1 ((st1.currentPlaylistIdx + 1).tmod st1.playlist.length)
          else some (stopPlayback dbOK st1)
        else some (st1, noFx)
      | none => some (st1, noFx)
    switched.map (fun r => (r.1, r.2 ++ ⟨[r.1], []⟩))

/-- Heap of `GlobalState` objects: `*GlobalState` is an address into it. -/
def Heap : Type := Nat → GlobalState

/-- The `Manager`'s `State *GlobalState` field: an address. -/
structure ManagerRef where
  stateRef : Nat

/-- Model of `Manager.GetFullState()`: it returns `m.State` — the pointer to the live
state object, not a copy of the object. -/
def GetFullState (m : ManagerRef) : Nat := m.stateRef

/-- Dereference a `*GlobalState`. -/
def readPtr (h : Heap) (p : Nat) : GlobalState := h p

/-- In-place update of the object `m.State` points to. -/
def writeState (h : Heap) (m : ManagerRef) (st : GlobalState) : Heap :=
  fun n => if n = m.stateRef then st else h n

/-- A `Seek` command run against the manager mutates the pointed-to state
object in place. -/
def SeekOnHeap (dbOK : Bool) (h : Heap) (m : ManagerRef) (pos : Int) : Heap :=
  writeState h m (Seek dbOK (readPtr h m.stateRef) pos).state

/-- Total wrapper around `NextSong` for iteration; the fallback branch is
unreachable for well-indexed states. -/
def applyNext (st : GlobalState) : GlobalState :=
  match NextSong true st with
  | some r => r.1
  | none => st

/-- The density invariant on positions: every entry's `order` field equals
its index in the playlist. -/
def ordersDense (pl : List PlaylistItem) : Prop :=
  ∀ i : Fin pl.length, (pl.get i).order = (i : Int)

instance (pl : List PlaylistItem) : Decidable (ordersDense pl) := by
  unfold ordersDense; infer_instance

/-! Concrete fixtures used by witnesses and counterexamples. -/

def song1 : Song := ⟨"t1", "T1", "A", "B", 5000⟩

def song2 : Song := ⟨"t2", "T2", "A", "B", 6000⟩

def song3 : Song := ⟨"t3", "T3", "A", "B", 7000⟩

/-- A track whose duration is unknown (0 ms). -/
def song0 : Song := ⟨"t0", "T0", "A", "B", 0⟩

def item1 : PlaylistItem := ⟨"t1", 0, some song1⟩

def item2 : PlaylistItem := ⟨"t2", 1, some song2⟩

def item3 : PlaylistItem := ⟨"t3", 2, some song3⟩

/-- Three-track playlist, current `t2` at index 1, playing. -/
def st3 : GlobalState := ⟨true, "t2", some song2, [item1, item2, item3], 1, 0⟩

/-- Single-track playlist whose only track is the one playing. -/
def stOne : GlobalState := ⟨true, "t1", some song1, [⟨"t1", 0, some song1⟩], 0, 1234⟩

/-- Empty playlist, nothing playing. -/
def stEmpty : GlobalState := ⟨false, "", none, [], 0, 0⟩

/-- Playing a track of unknown (zero) duration. -/
def stZeroDur : GlobalState :=
  ⟨true, "t0", some song0, [⟨"t0", 0, some song0⟩, item2], 0, 0⟩

/-- Current track `t1` with duration 5000 ms at progress 4900 ms
(end-to-end scenario C). -/
def stNearEnd : GlobalState :=
  ⟨true, "t1", some song1, [⟨"t1", 0, some song1⟩, ⟨"t2", 1, some song2⟩], 0, 4900⟩

/-! Helper lemmas shared by the claim theorems. -/

theorem changeSong_fields {dbOK : Bool} {st : GlobalState} {i : Int}
    {st' : GlobalState} {fx : Effects}
    (h : changeSong dbOK st i = some (st', fx)) :
    st'.isPlaying = true ∧ st'.progressMs = 0 ∧ st'.currentPlaylistIdx = i ∧
    st'.playlist = st.playlist ∧ fx.broadcasts = [st'] ∧
    ∀ item, st.playlist.get? i.toNat = some item →
      st'.currentSongID = item.songID ∧ st'.currentSong = item.song := by
  unfold changeSong at h
  rcases hg : st.playlist.get? i.toNat with _ | item
  · rw [hg] at h; exact absurd h (by simp)
  · rw [hg] at h
    by_cases hi : i < 0
    · simp [hi] at h
    · simp only [hi, if_false] at h
      injection h with h1
      injection h1 with ha hb
      subst ha; subst hb
      refine ⟨rfl, rfl, rfl, rfl, rfl, ?_⟩
      intro item' hitem'
      injection hitem' with hh
      subst hh
      exact ⟨rfl, rfl⟩

theorem changeSong_some {dbOK : Bool} {st : GlobalState} {i : Int}
    (h0 : 0 ≤ i) (h1 : i.toNat < st.playlist.length) :
    ∃ st' fx, changeSong dbOK st i = some (st', fx) := by
  unfold changeSong
  rcases hg : st.playlist.get? i.toNat with _ | item
  · rw [List.get?_eq_none] at hg; omega
  · simp only [not_lt.mpr h0, if_false]
    exact ⟨_, _, rfl⟩

/-- C10: every successful track switch — `NextSong`, `PrevSong`,
`PlaySpecificSong`, or a progress-tick auto-advance — routes through the
shared `changeSong` routine, which always sets `isPlaying` to `true`,
resets `progressMs` to `0`, and sets the current track id and index to the
target entry, even when the player was paused before the operation. -/
theorem changeSong_routing (dbOK : Bool) (st : GlobalState) (i : Int)
    (songID : String) :
    (∀ st' fx, changeSong dbOK st i = some (st', fx) →
      st'.isPlaying = true ∧ st'.progressMs = 0 ∧
      st'.currentPlaylistIdx = i ∧
      ∀ item, st.playlist.get? i.toNat = some item →
        st'.currentSongID = item.songID ∧ st'.currentSong = item.song) ∧
    (st.playlist.length ≠ 0 →
      NextSong dbOK st =
        changeSong dbOK st ((st.currentPlaylistIdx + 1).tmod st.playlist.length) ∧
      PrevSong dbOK st =
        changeSong dbOK st
          ((st.currentPlaylistIdx - 1 + st.playlist.length).tmod st.playlist.length)) ∧
    (∀ j, findSongIdx st.playlist songID = some j →
      PlaySpecificSong dbOK st songID =
        (changeSong dbOK st (j : Int)).map (fun r => ⟨none, r.1, r.2⟩)) ∧
    (st.isPlaying = true →
      ∀ song, st.currentSong = some song →
        song.durationMs ≤ st.progressMs + 1000 → 0 < st.playlist.length →
        tick dbOK st =
          (changeSong dbOK { st with progressMs := st.progressMs + 1000 }
              ((st.currentPlaylistIdx + 1).tmod st.playlist.length)).map
            (fun r => (r.1, r.2 ++ ⟨[r.1], []⟩))) := by
  refine ⟨?_, ?_, ?_, ?_⟩
  · intro st' fx h
    obtain ⟨h1, h2, h3, _, _, h6⟩ := changeSong_fields h
    exact ⟨h1, h2, h3, h6⟩
  · intro hne
    exact ⟨by simp [NextSong, hne], by simp [PrevSong, hne]⟩
  · intro j hj
    simp [PlaySpecificSong, hj]
  · intro hp song hsong hdur hlen
    simp only [tick, hp, Bool.not_true, Bool.false_eq_true, if_false]
    simp [hsong, hdur, hlen]

/-- Closed witness for `changeSong_routing`: instantiated on the concrete
three-track state `st3` and its successful `NextSong`. -/
theorem changeSong_routing_witness :
    (NextSong true st3 =
      changeSong true st3 ((st3.currentPlaylistIdx + 1).tmod st3.playlist.length)) ∧
    ∀ st' fx, changeSong true st3 2 = some (st', fx) →
      st'.isPlaying = true ∧ st'.progressMs = 0 := by
  refine ⟨((changeSong_routing true st3 2 "t3").2.1 (by decide)).1, ?_⟩
  intro st' fx h
  obtain ⟨h1, h2, _⟩ := (changeSong_routing true st3 2 "t3").1 st' fx h
  exact ⟨h1, h2⟩

/-- C4: `Seek(positionMs)` fails with InvalidState when there is no current
track, leaving the state unchanged and broadcasting nothing; otherwise it
succeeds regardless of play/pause state, `progressMs` is never negative
afterwards, and when the current track's duration is known and positive the
result is `positionMs` clamped into `[0, durationMs]`, so
`0 ≤ progressMs ≤ durationMs` holds afterwards. -/
theorem seek_clamps (dbOK : Bool) (st : GlobalState) (positionMs : Int) :
    (st.currentSong = none →
      Seek dbOK st positionMs =
        ⟨some "no song is currently playing", st, noFx⟩) ∧
    (∀ song, st.currentSong = some song →
      (Seek dbOK st positionMs).err = none ∧
      0 ≤ (Seek dbOK st positionMs).state.progressMs ∧
      (0 < song.durationMs →
        (Seek dbOK st positionMs).state.progressMs ≤ song.durationMs ∧
        (Seek dbOK st positionMs).state.progressMs =
          max 0 (min positionMs song.durationMs))) := by
  constructor
  · intro hn; simp [Seek, hn]
  · intro song hs
    simp only [Seek, hs]
    refine ⟨by trivial, by split_ifs <;> omega,
      fun hpos => ⟨by split_ifs <;> omega,
                   by split_ifs <;> omega⟩⟩

/-- Closed witness for `seek_clamps`: scenario D — on a 5000 ms track,
`Seek(-100)` yields `progressMs = 0` and `Seek(999999)` yields `5000`. -/
theorem seek_clamps_witness :
    (Seek true stNearEnd (-100)).state.progressMs = max 0 (min (-100) 5000) ∧
    (Seek true stNearEnd 999999).state.progressMs = max 0 (min 999999 5000) ∧
    (Seek true stNearEnd (-100)).state.progressMs = 0 ∧
    (Seek true stNearEnd 999999).state.progressMs = 5000 := by
  refine ⟨((seek_clamps true stNearEnd (-100)).2 song1 rfl).2.2 (by decide) |>.2,
          ((seek_clamps true stNearEnd 999999).2 song1 rfl).2.2 (by decide) |>.2,
          by decide, by decide⟩

theorem applyNext_step {st : GlobalState}
    (h0 : 0 ≤ st.currentPlaylistIdx)
    (h1 : st.currentPlaylistIdx < (st.playlist.length : Int)) :
    (applyNext st).playlist = st.playlist ∧
    (applyNext st).currentPlaylistIdx =
      (st.currentPlaylistIdx + 1) % (st.playlist.length : Int) := by
  have hlen : st.playlist.length ≠ 0 := by omega
  have htm : (st.currentPlaylistIdx + 1).tmod (st.playlist.length : Int) =
      (st.currentPlaylistIdx + 1) % (st.playlist.length : Int) :=
    Int.tmod_eq_emod (by omega) (by omega)
  have hb0 : 0 ≤ (st.currentPlaylistIdx + 1) % (st.playlist.length : Int) :=
    Int.emod_nonneg _ (by omega)
  have hb1 : (st.currentPlaylistIdx + 1) % (st.playlist.length : Int) <
      (st.playlist.length : Int) := Int.emod_lt_of_pos _ (by omega)
  obtain ⟨st', fx, hcs⟩ :=
    @changeSong_some true st ((st.currentPlaylistIdx + 1).tmod st.playlist.length)
      (by rw [htm]; exact hb0) (by rw [htm]; omega)
  have hnext : NextSong true st = some (st', fx) := by
    unfold NextSong; rw [if_neg hlen]; exact hcs
  obtain ⟨_, _, hidx, hpl, _, _⟩ := changeSong_fields hcs
  have : applyNext st = st' := by unfold applyNext; rw [hnext]
  rw [this, hpl, hidx, htm]
  exact ⟨rfl, rfl⟩

theorem applyNext_iter {st : GlobalState}
    (h0 : 0 ≤ st.currentPlaylistIdx)
    (h1 : st.currentPlaylistIdx < (st.playlist.length : Int)) (k : Nat) :
    (applyNext^[k] st).playlist = st.playlist ∧
    (applyNext^[k] st).currentPlaylistIdx =
      (st.currentPlaylistIdx + k) % (st.playlist.length : Int) := by
  induction k with
  | zero =>
    refine ⟨rfl, ?_⟩
    simp only [Function.iterate_zero, id_eq, Nat.cast_zero, Int.add_zero]
    exact (Int.emod_eq_of_lt h0 h1).symm
  | succ k ih =>
    have hlen : (0 : Int) < st.playlist.length := by omega
    have hb0 : 0 ≤ (applyNext^[k] st).currentPlaylistIdx := by
      rw [ih.2]; exact Int.emod_nonneg _ (by omega)
    have hb1 : (applyNext^[k] st).currentPlaylistIdx <
        ((applyNext^[k] st).playlist.length : Int) := by
      rw [ih.2, ih.1]; exact Int.emod_lt_of_pos _ hlen
    obtain ⟨hstep1, hstep2⟩ := applyNext_step hb0 hb1
    rw [Function.iterate_succ_apply']
    refine ⟨hstep1.trans ih.1, ?_⟩
    rw [hstep2, ih.1, ih.2, Int.emod_add_emod]
    push_cast
    ring_nf

/-- C8: on a non-empty playlist with a valid current index, `NextSong` sets
the index to `(currentIndex + 1) mod len` and `PrevSong` to
`(currentIndex - 1) mod len`, wrapping around in both directions; applying
`NextSong` exactly `len` times returns the index to its starting value.  On
an empty playlist both operations stop playback (clear the current track,
zero progress) and broadcast. -/
theorem next_prev_wraparound (dbOK : Bool) (st : GlobalState) :
    (st.playlist.length = 0 →
      NextSong dbOK st = some (stopPlayback dbOK st) ∧
      PrevSong dbOK st = some (stopPlayback dbOK st) ∧
      (stopPlayback dbOK st).1.isPlaying = false ∧
      (stopPlayback dbOK st).1.currentSongID = "" ∧
      (stopPlayback dbOK st).1.currentSong = none ∧
      (stopPlayback dbOK st).1.progressMs = 0 ∧
      (stopPlayback dbOK st).2.broadcasts = [(stopPlayback dbOK st).1]) ∧
    (0 ≤ st.currentPlaylistIdx →
      st.currentPlaylistIdx < (st.playlist.length : Int) →
      (∃ r, NextSong dbOK st = some r ∧
        r.1.currentPlaylistIdx =
          (st.currentPlaylistIdx + 1) % (st.playlist.length : Int)) ∧
      (∃ r, PrevSong dbOK st = some r ∧
        r.1.currentPlaylistIdx =
          (st.currentPlaylistIdx - 1) % (st.playlist.length : Int)) ∧
      (applyNext^[st.playlist.length] st).currentPlaylistIdx =
        st.currentPlaylistIdx) := by
  constructor
  · intro h
    exact ⟨by simp [NextSong, h], by simp [PrevSong, h], rfl, rfl, rfl, rfl, rfl⟩
  · intro h0 h1
    have hlen : st.playlist.length ≠ 0 := by omega
    refine ⟨?_, ?_, ?_⟩
    · have htm : (st.currentPlaylistIdx + 1).tmod (st.playlist.length : Int) =
          (st.currentPlaylistIdx + 1) % (st.playlist.length : Int) :=
        Int.tmod_eq_emod (by omega) (by omega)
      have hb0 : 0 ≤ (st.currentPlaylistIdx + 1) % (st.playlist.length : Int) :=
        Int.emod_nonneg _ (by omega)
      have hb1 : (st.currentPlaylistIdx + 1) % (st.playlist.length : Int) <
          (st.playlist.length : Int) := Int.emod_lt_of_pos _ (by omega)
      obtain ⟨st', fx, hcs⟩ :=
        @changeSong_some dbOK st
          ((st.currentPlaylistIdx + 1).tmod st.playlist.length)
          (by rw [htm]; exact hb0) (by rw [htm]; omega)
      obtain ⟨_, _, hidx, _, _, _⟩ := changeSong_fields hcs
      refine ⟨(st', fx), ?_, ?_⟩
      · unfold NextSong; rw [if_neg hlen]; exact hcs
      · rw [hidx, htm]
    · have htm : (st.currentPlaylistIdx - 1 + st.playlist.length).tmod
            (st.playlist.length : Int) =
          (st.currentPlaylistIdx - 1 + st.playlist.length) %
            (st.playlist.length : Int) :=
        Int.tmod_eq_emod (by omega) (by omega)
      have heq : (st.currentPlaylistIdx - 1 + st.playlist.length) %
            (st.playlist.length : Int) =
          (st.currentPlaylistIdx - 1) % (st.playlist.length : Int) := by
        have h2 := Int.add_mul_emod_self_left (st.currentPlaylistIdx - 1)
          (st.playlist.length : Int) 1
        rw [Int.mul_one] at h2
        exact h2
      have hb0 : 0 ≤ (st.currentPlaylistIdx - 1) % (st.playlist.length : Int) :=
        Int.emod_nonneg _ (by omega)
      have hb1 : (st.currentPlaylistIdx - 1) % (st.playlist.length : Int) <
          (st.playlist.length : Int) := Int.emod_lt_of_pos _ (by omega)
      obtain ⟨st', fx, hcs⟩ :=
        @changeSong_some dbOK st
          ((st.currentPlaylistIdx - 1 + st.playlist.length).tmod
            st.playlist.length)
          (by rw [htm, heq]; exact hb0) (by rw [htm, heq]; omega)
      obtain ⟨_, _, hidx, _, _, _⟩ := changeSong_fields hcs
      refine ⟨(st', fx), ?_, ?_⟩
      · unfold PrevSong; rw [if_neg hlen]; exact hcs
      · rw [hidx, htm, heq]
    · rw [(applyNext_iter h0 h1 st.playlist.length).2]
      have : (st.currentPlaylistIdx + (st.playlist.length : Int)) %
          (st.playlist.length : Int) =
          st.currentPlaylistIdx % (st.playlist.length : Int) := by
        have := Int.add_mul_emod_self_left st.currentPlaylistIdx
          (st.playlist.length : Int) 1
        rw [Int.mul_one] at this
        exact this
      rw [this, Int.emod_eq_of_lt h0 h1]

/-- Closed witness for `next_prev_wraparound`: on the three-track state
`st3` (current index 1), three `NextSong`s return the index to 1, and one
`PrevSong` lands on index `(1 - 1) mod 3 = 0`. -/
theorem next_prev_wraparound_witness :
    (applyNext^[st3.playlist.length] st3).currentPlaylistIdx =
      st3.currentPlaylistIdx ∧
    (∃ r, PrevSong true st3 = some r ∧
      r.1.currentPlaylistIdx =
        (st3.currentPlaylistIdx - 1) % (st3.playlist.length : Int)) := by
  obtain ⟨_, hprev, hiter⟩ :=
    (next_prev_wraparound true st3).2 (by decide) (by decide)
  exact ⟨hiter, hprev⟩

theorem reorderApply_currentSongID {st : GlobalState} {songID : String}
    {newIndex : Int} {oldIndex : Nat} {item : PlaylistItem} :
    (reorderApply st songID newIndex oldIndex item).currentSongID =
      st.currentSongID := rfl

theorem reorderApply_idx {st : GlobalState} {songID : String}
    {newIndex : Int} {oldIndex : Nat} {item : PlaylistItem} :
    (reorderApply st songID newIndex oldIndex item).currentPlaylistIdx =
      if st.currentSongID = songID then newIndex
      else
        if (if (oldIndex : Int) < st.currentPlaylistIdx ∧
              st.currentPlaylistIdx ≤ newIndex then st.currentPlaylistIdx - 1
            else st.currentPlaylistIdx) < (oldIndex : Int) ∧
           newIndex ≤ (if (oldIndex : Int) < st.currentPlaylistIdx ∧
              st.currentPlaylistIdx ≤ newIndex then st.currentPlaylistIdx - 1
            else st.currentPlaylistIdx) then
          (if (oldIndex : Int) < st.currentPlaylistIdx ∧
              st.currentPlaylistIdx ≤ newIndex then st.currentPlaylistIdx - 1
            else st.currentPlaylistIdx) + 1
        else
          (if (oldIndex : Int) < st.currentPlaylistIdx ∧
              st.currentPlaylistIdx ≤ newIndex then st.currentPlaylistIdx - 1
            else st.currentPlaylistIdx) := rfl

/-- C3: `ReorderPlaylist(trackId, newIndex)` fails with OutOfRange for
`newIndex` outside `[0, len)` leaving the state unchanged; it is a no-op
when the track is already at `newIndex`; `currentSongID` is never altered;
on every successful move, if the moved track is the current track the new
current index is `newIndex`, and otherwise the current index shifts by one
exactly when the move crosses over it (in either direction).  Concretely,
from `[t1,t2,t3]` with current `t2` at index 1, `Reorder("t1", 2)` yields
order `[t2,t3,t1]` with current index 0. -/
theorem reorder_spec (dbOK : Bool) (st : GlobalState) (songID : String)
    (newIndex : Int) :
    ((newIndex < 0 ∨ (st.playlist.length : Int) ≤ newIndex) →
      ReorderPlaylist dbOK st songID newIndex =
        some ⟨some "newIndex out of bounds", st, noFx⟩) ∧
    (∀ oldIndex, ¬(newIndex < 0 ∨ (st.playlist.length : Int) ≤ newIndex) →
      findSongIdx st.playlist songID = some oldIndex →
      (oldIndex : Int) = newIndex →
      ReorderPlaylist dbOK st songID newIndex = some ⟨none, st, noFx⟩) ∧
    (∀ r, ReorderPlaylist dbOK st songID newIndex = some r →
      r.state.currentSongID = st.currentSongID) ∧
    (∀ oldIndex item r,
      ¬(newIndex < 0 ∨ (st.playlist.length : Int) ≤ newIndex) →
      findSongIdx st.playlist songID = some oldIndex →
      (oldIndex : Int) ≠ newIndex →
      st.playlist.get? oldIndex = some item →
      ReorderPlaylist dbOK st songID newIndex = some r →
      (st.currentSongID = songID → r.state.currentPlaylistIdx = newIndex) ∧
      (st.currentSongID ≠ songID →
        r.state.currentPlaylistIdx =
          if (oldIndex : Int) < st.currentPlaylistIdx ∧
              st.currentPlaylistIdx ≤ newIndex then st.currentPlaylistIdx - 1
          else if st.currentPlaylistIdx < (oldIndex : Int) ∧
              newIndex ≤ st.currentPlaylistIdx then st.currentPlaylistIdx + 1
          else st.currentPlaylistIdx)) ∧
    ((ReorderPlaylist true st3 "t1" 2).map
        (fun r => (r.state.playlist.map PlaylistItem.songID,
                   r.state.currentPlaylistIdx, r.err)) =
      some (["t2", "t3", "t1"], 0, none)) := by
  refine ⟨?_, ?_, ?_, ?_, by decide⟩
  · intro h
    unfold ReorderPlaylist
    rw [if_pos h]
  · intro oldIndex hrange hfind heq
    unfold ReorderPlaylist
    rw [if_neg hrange, hfind]
    dsimp only
    rw [if_pos heq]
  · intro r hr
    unfold ReorderPlaylist at hr
    split at hr
    · injection hr with h; rw [← h]
    · split at hr
      · injection hr with h; rw [← h]
      · split at hr
        · injection hr with h; rw [← h]
        · split at hr
          · exact absurd hr (by simp)
          · split at hr <;>
              (injection hr with h; rw [← h]; exact reorderApply_currentSongID)
  · intro oldIndex item r hrange hfind hne hget hr
    unfold ReorderPlaylist at hr
    rw [if_neg hrange, hfind] at hr
    dsimp only at hr
    rw [if_neg hne, hget] at hr
    dsimp only at hr
    have hstate : r.state = reorderApply st songID newIndex oldIndex item := by
      split at hr <;> (injection hr with h; rw [← h])
    constructor
    · intro hc
      rw [hstate, reorderApply_idx, if_pos hc]
    · intro hc
      rw [hstate, reorderApply_idx, if_neg hc]
      split_ifs <;> omega

/-- Closed witness for `reorder_spec`: instantiated on the scenario-B state
`st3` and the move of `t1` to index 2. -/
theorem reorder_spec_witness :
    ∃ r, ReorderPlaylist true st3 "t1" 2 = some r ∧
      r.state.currentPlaylistIdx =
        (if ((0 : Nat) : Int) < st3.currentPlaylistIdx ∧
            st3.currentPlaylistIdx ≤ 2 then st3.currentPlaylistIdx - 1
         else if st3.currentPlaylistIdx < ((0 : Nat) : Int) ∧
            (2 : Int) ≤ st3.currentPlaylistIdx then st3.currentPlaylistIdx + 1
         else st3.currentPlaylistIdx) := by
  have h := (reorder_spec true st3 "t1" 2).2.2.2.1 0 item1
    ⟨some "db", st3, noFx⟩
  refine ⟨(ReorderPlaylist true st3 "t1" 2).get (by decide), ?_, ?_⟩
  · exact (Option.some_get (by decide)).symm
  · have h2 := (reorder_spec true st3 "t1" 2).2.2.2.1 0 item1
      ((ReorderPlaylist true st3 "t1" 2).get (by decide))
      (by decide) (by decide) (by decide) (by decide)
      ((Option.some_get (by decide)).symm)
    exact h2.2 (by decide)

/-- C7: `AddToPlaylist(trackId)` fails with NotFound when the track is
unknown to the library and leaves the state unchanged; when the track is
already queued it succeeds without inserting a duplicate; otherwise it
appends the track at the end with `Order = len`; and when the playlist was
empty it auto-starts playback at index 0 (playing, current id set, progress
0). -/
theorem addToPlaylist_spec (library : List Song) (dbOK : Bool)
    (st : GlobalState) (songID : String) :
    (library.find? (fun s => s.id == songID) = none →
      AddToPlaylist library dbOK st songID =
        some ⟨some "song not found", st, noFx⟩) ∧
    (∀ song, library.find? (fun s => s.id == songID) = some song →
      (st.playlist.any (fun item => item.songID == songID) = true →
        AddToPlaylist library dbOK st songID = some ⟨none, st, noFx⟩) ∧
      (st.playlist.any (fun item => item.songID == songID) = false →
        (∃ r, AddToPlaylist library dbOK st songID = some r ∧ r.err = none ∧
          r.state.playlist =
            st.playlist ++ [⟨songID, (st.playlist.length : Int), some song⟩]) ∧
        (st.playlist = [] →
          ∃ r, AddToPlaylist library dbOK st songID = some r ∧ r.err = none ∧
            r.state.isPlaying = true ∧ r.state.currentSongID = songID ∧
            r.state.currentPlaylistIdx = 0 ∧ r.state.progressMs = 0 ∧
            r.state.currentSong = some song))) := by
  constructor
  · intro h
    unfold AddToPlaylist
    rw [h]
  · intro song hfind
    constructor
    · intro hany
      unfold AddToPlaylist
      rw [hfind]
      dsimp only
      rw [if_pos hany]
    · intro hnot
      have hcond : ¬(st.playlist.any (fun item => item.songID == songID) = true) := by
        rw [hnot]; exact Bool.false_ne_true
      constructor
      · by_cases hlen :
          (st.playlist ++ [(⟨songID, (st.playlist.length : Int), some song⟩ :
            PlaylistItem)]).length = 1
        · obtain ⟨st', fx, hcs⟩ :=
            @changeSong_some dbOK
              { st with playlist :=
                st.playlist ++ [⟨songID, (st.playlist.length : Int), some song⟩] }
              0 (by omega) (by simp)
          obtain ⟨_, _, _, hpl, _, _⟩ := changeSong_fields hcs
          refine ⟨⟨none, st', ⟨[], writeKey dbOK "playlist"⟩ ++ fx ++ ⟨[st'], []⟩⟩,
            ?_, rfl, ?_⟩
          · unfold AddToPlaylist
            rw [hfind]
            dsimp only
            rw [if_neg hcond, if_pos hlen, hcs]
            rfl
          · rw [hpl]
        · refine ⟨⟨none,
            { st with playlist :=
              st.playlist ++ [⟨songID, (st.playlist.length : Int), some song⟩] },
            ⟨[], writeKey dbOK "playlist"⟩ ++
              ⟨[{ st with playlist :=
                st.playlist ++ [⟨songID, (st.playlist.length : Int), some song⟩] }],
                []⟩⟩, ?_, rfl, rfl⟩
          unfold AddToPlaylist
          rw [hfind]
          dsimp only
          rw [if_neg hcond, if_neg hlen]
      · intro hpl
        have hitem : ({ st with playlist :=
            st.playlist ++ [⟨songID, (st.playlist.length : Int), some song⟩] } :
              GlobalState).playlist.get? (0 : Int).toNat =
            some ⟨songID, (st.playlist.length : Int), some song⟩ := by
          rw [hpl]; rfl
        obtain ⟨st', fx, hcs⟩ :=
          @changeSong_some dbOK
            { st with playlist :=
              st.playlist ++ [⟨songID, (st.playlist.length : Int), some song⟩] }
            0 (by omega) (by rw [hpl]; simp)
        obtain ⟨hp1, hp2, hp3, _, _, hp6⟩ := changeSong_fields hcs
        obtain ⟨hid, hsg⟩ := hp6 _ hitem
        refine ⟨⟨none, st', ⟨[], writeKey dbOK "playlist"⟩ ++ fx ++ ⟨[st'], []⟩⟩,
          ?_, rfl, hp1, hid, hp3, hp2, hsg⟩
        unfold AddToPlaylist
        rw [hfind]
        dsimp only
        rw [if_neg hcond, if_pos (by rw [hpl]; rfl), hcs]
        rfl

/-- Closed witness for `addToPlaylist_spec`: scenario A — from the empty
playlist, `AddToPlaylist("t1")` with `t1` in the library ends playing `t1`
at index 0 with progress 0. -/
theorem addToPlaylist_spec_witness :
    ∃ r, AddToPlaylist [song1] true stEmpty "t1" = some r ∧ r.err = none ∧
      r.state.isPlaying = true ∧ r.state.currentSongID = "t1" ∧
      r.state.currentPlaylistIdx = 0 ∧ r.state.progressMs = 0 ∧
      r.state.currentSong = some song1 := by
  exact ((addToPlaylist_spec [song1] true stEmpty "t1").2 song1 rfl).2
    (by decide) |>.2 rfl

/-- C2 (amended): a tick taken while paused neither mutates nor broadcasts;
a tick taken while playing adds 1000 ms to `progressMs`; the switch to the
next index happens whenever a current track EXISTS and the new progress has
reached its `durationMs` — the source does not additionally require the
duration to be positive — and resets progress to 0; otherwise the tick only
broadcasts the new progress (no persistence write occurs on a plain tick).
With current duration 5000 ms and progress 4900 ms, one tick auto-advances
to the next track with progress reset to 0. -/
theorem tick_spec (dbOK : Bool) (st : GlobalState) :
    (st.isPlaying = false → tick dbOK st = some (st, noFx)) ∧
    (st.isPlaying = true →
      (st.currentSong = none →
        tick dbOK st =
          some ({ st with progressMs := st.progressMs + 1000 },
            ⟨[{ st with progressMs := st.progressMs + 1000 }], []⟩)) ∧
      (∀ song, st.currentSong = some song →
        st.progressMs + 1000 < song.durationMs →
        tick dbOK st =
          some ({ st with progressMs := st.progressMs + 1000 },
            ⟨[{ st with progressMs := st.progressMs + 1000 }], []⟩)) ∧
      (∀ song, st.currentSong = some song →
        song.durationMs ≤ st.progressMs + 1000 →
        0 ≤ st.currentPlaylistIdx →
        st.currentPlaylistIdx < (st.playlist.length : Int) →
        ∃ r, tick dbOK st = some r ∧
          r.1.currentPlaylistIdx =
            (st.currentPlaylistIdx + 1) % (st.playlist.length : Int) ∧
          r.1.progressMs = 0 ∧ r.1.isPlaying = true)) ∧
    ((tick true stNearEnd).map
        (fun r => (r.1.currentSongID, r.1.progressMs, r.1.currentPlaylistIdx)) =
      some ("t2", 0, 1)) := by
  refine ⟨?_, ?_, by decide⟩
  · intro h
    unfold tick
    rw [h]
    rfl
  · intro hp
    have hif : (!st.isPlaying) = false := by rw [hp]; rfl
    refine ⟨?_, ?_, ?_⟩
    · intro hn
      unfold tick
      rw [hif]
      dsimp only
      rw [hn]
      simp [noFx]
    · intro song hs hlt
      have hcond : ¬(song.durationMs ≤ st.progressMs + 1000) := by omega
      unfold tick
      simp only [hp, Bool.not_true, Bool.false_eq_true, if_false]
      rw [hs]
      dsimp only
      rw [if_neg hcond]
      simp [noFx]
    · intro song hs hdur h0 h1
      have hlen : 0 < st.playlist.length := by omega
      have htm : (st.currentPlaylistIdx + 1).tmod (st.playlist.length : Int) =
          (st.currentPlaylistIdx + 1) % (st.playlist.length : Int) :=
        Int.tmod_eq_emod (by omega) (by omega)
      have hb0 : 0 ≤ (st.currentPlaylistIdx + 1) % (st.playlist.length : Int) :=
        Int.emod_nonneg _ (by omega)
      have hb1 : (st.currentPlaylistIdx + 1) % (st.playlist.length : Int) <
          (st.playlist.length : Int) := Int.emod_lt_of_pos _ (by omega)
      have htn : ((st.currentPlaylistIdx + 1).tmod (st.playlist.length : Int)).toNat <
          st.playlist.length := by
        rw [htm]; omega
      obtain ⟨st', fx, hcs⟩ :=
        @changeSong_some dbOK
          { st with progressMs := st.progressMs + 1000 }
          ((st.currentPlaylistIdx + 1).tmod st.playlist.length)
          (by rw [htm]; exact hb0) htn
      obtain ⟨hq1, hq2, hq3, _, _, _⟩ := changeSong_fields hcs
      refine ⟨(st', fx ++ ⟨[st'], []⟩), ?_, by rw [hq3, htm], hq2, hq1⟩
      rw [hp, hs] at hcs
      unfold tick
      simp only [hp, Bool.not_true, Bool.false_eq_true, if_false]
      rw [hs]
      dsimp only
      rw [if_pos hdur, if_pos hlen, hcs]
      rfl

/-- Closed witness for `tick_spec`: scenario C on the concrete state
`stNearEnd` (duration 5000, progress 4900) — one tick switches tracks with
progress reset to 0. -/
theorem tick_spec_witness :
    ∃ r, tick true stNearEnd = some r ∧
      r.1.currentPlaylistIdx =
        (stNearEnd.currentPlaylistIdx + 1) % (stNearEnd.playlist.length : Int) ∧
      r.1.progressMs = 0 ∧ r.1.isPlaying = true := by
  exact ((tick_spec true stNearEnd).2.1 rfl).2.2 song1 rfl (by decide)
    (by decide) (by decide)

/-- C2 counterexample: with a current track of unknown (zero, hence not
positive) duration, a tick still auto-advances to the next track — the
switch is NOT restricted to tracks with known positive duration. -/
theorem tick_zero_duration_advances :
    stZeroDur.currentSong = some song0 ∧ song0.durationMs = 0 ∧
    stZeroDur.isPlaying = true ∧
    (tick true stZeroDur).map
        (fun r => (r.1.currentSongID, r.1.currentPlaylistIdx, r.1.progressMs)) =
      some ("t2", 1, 0) := by
  exact ⟨rfl, rfl, rfl, by decide⟩

/-- C1 (code bug): removing the only — and currently playing — track via
`RemoveFromPlaylist` leaves the empty-playlist invariant violated.  The
internal `NextSong` runs while the track is still in the list and re-selects
that very track (`(0+1) % 1 = 0`), so after the filter the playlist is empty
while `isPlaying` is still `true`, the current track id is still `"t1"`, and
the current track pointer still set — the stop-playback fallback the code's
own comment promises never fires. -/
theorem remove_last_playing_song_violates_empty_invariant :
    (RemoveFromPlaylist true stOne "t1").map
        (fun r => (r.err, r.state.playlist, r.state.isPlaying,
                   r.state.currentSongID, r.state.currentSong,
                   r.state.progressMs)) =
      some (none, [], true, "t1", some song1, 0) := by rfl

/-- The concrete heap used to exhibit the `GetFullState` aliasing: one
`GlobalState` object at address 0, pointed to by the manager. -/
def heap0 : Heap := fun _ => st3

def mgr0 : ManagerRef := ⟨0⟩

/-- C9 (code bug): `GetFullState` returns `m.State` — the pointer to the
live state object, not a copy.  Dereferencing the "snapshot" taken before a
`Seek(3000)` after that command runs observes the mutated state (progress
3000), not the state at snapshot time (progress 0): the snapshot is not
independent of later mutations, contradicting the function's own "returns a
copy" contract. -/
theorem getFullState_aliases_live_state :
    readPtr heap0 (GetFullState mgr0) = st3 ∧
    readPtr (SeekOnHeap true heap0 mgr0 3000) (GetFullState mgr0) =
      (Seek true st3 3000).state ∧
    readPtr (SeekOnHeap true heap0 mgr0 3000) (GetFullState mgr0) ≠
      readPtr heap0 (GetFullState mgr0) := by
  refine ⟨rfl, rfl, by decide⟩

theorem reorderApply_playlist {st : GlobalState} {songID : String}
    {newIndex : Int} {oldIndex : Nat} {item : PlaylistItem} :
    (reorderApply st songID newIndex oldIndex item).playlist =
      reindexOrders
        ((st.playlist.take oldIndex ++ st.playlist.drop (oldIndex + 1)).take
            newIndex.toNat ++ [item] ++
          (st.playlist.take oldIndex ++ st.playlist.drop (oldIndex + 1)).drop
            newIndex.toNat) := rfl

theorem ordersDense_reindex (pl : List PlaylistItem) :
    ordersDense (reindexOrders pl) := by
  intro i
  rcases i with ⟨i, hi⟩
  simp [reindexOrders, List.getElem_enum]

theorem ordersDense_append {pl : List PlaylistItem} (h : ordersDense pl)
    (songID : String) (song : Option Song) :
    ordersDense (pl ++ [⟨songID, (pl.length : Int), song⟩]) := by
  intro i
  rcases i with ⟨i, hi⟩
  rw [List.length_append, List.length_singleton] at hi
  by_cases hlt : i < pl.length
  · have hpl := h ⟨i, hlt⟩
    rw [List.get_eq_getElem] at hpl ⊢
    rw [List.getElem_append_left hlt]
    exact hpl
  · have hieq : i = pl.length := by omega
    subst hieq
    rw [List.get_eq_getElem, List.getElem_append_right (Nat.le_refl _)]
    simp

theorem nextSong_playlist {dbOK : Bool} {st : GlobalState}
    {r : GlobalState × Effects} (h : NextSong dbOK st = some r) :
    r.1.playlist = st.playlist := by
  obtain ⟨st', fx⟩ := r
  unfold NextSong at h
  split at h
  · injection h with h1
    rw [← h1]
    rfl
  · exact (changeSong_fields h).2.2.2.1

/-- C6 (amended): `ReorderPlaylist` rewrites every `Order` field densely on
every successful non-no-op move, and `AddToPlaylist` preserves density
(appending with the next position); but `RemoveFromPlaylist` only filters
the entry out and does NOT rewrite positions, so the surviving entries keep
their old `Order` values (the entries after the removed one are off by
one). -/
theorem positions_after_mutations (library : List Song) (dbOK : Bool)
    (st : GlobalState) (songID : String) (newIndex : Int) :
    (∀ oldIndex item r,
      ¬(newIndex < 0 ∨ (st.playlist.length : Int) ≤ newIndex) →
      findSongIdx st.playlist songID = some oldIndex →
      (oldIndex : Int) ≠ newIndex →
      st.playlist.get? oldIndex = some item →
      ReorderPlaylist dbOK st songID newIndex = some r →
      ordersDense r.state.playlist) ∧
    (ordersDense st.playlist →
      ∀ r, AddToPlaylist library dbOK st songID = some r →
        ordersDense r.state.playlist) ∧
    (∀ r, RemoveFromPlaylist dbOK st songID = some r → r.err = none →
      r.state.playlist =
        st.playlist.filter (fun it => it.songID != songID)) := by
  refine ⟨?_, ?_, ?_⟩
  · intro oldIndex item r hrange hfind hne hget hr
    unfold ReorderPlaylist at hr
    rw [if_neg hrange, hfind] at hr
    dsimp only at hr
    rw [if_neg hne, hget] at hr
    dsimp only at hr
    have hstate : r.state = reorderApply st songID newIndex oldIndex item := by
      split at hr <;> (injection hr with h; rw [← h])
    rw [hstate, reorderApply_playlist]
    exact ordersDense_reindex _
  · intro hdense r hr
    unfold AddToPlaylist at hr
    split at hr
    · injection hr with h1
      rw [← h1]
      exact hdense
    · split at hr
      · injection hr with h1
        rw [← h1]
        exact hdense
      · rename_i song hfind hany
        split at hr
        · rcases hmap : changeSong dbOK
              { st with playlist := st.playlist ++
                [⟨songID, (st.playlist.length : Int), some song⟩] } 0 with
            _ | ⟨st', fx⟩
          · rw [hmap] at hr
            exact absurd hr (by simp)
          · rw [hmap] at hr
            rw [Option.map_some'] at hr
            obtain ⟨_, _, _, hpl, _, _⟩ := changeSong_fields hmap
            injection hr with h1
            rw [← h1]
            dsimp only
            rw [hpl]
            exact ordersDense_append hdense songID (some song)
        · injection hr with h1
          rw [← h1]
          exact ordersDense_append hdense songID (some song)
  · intro r hr hrerr
    unfold RemoveFromPlaylist at hr
    rcases hstep : (if removeIsCurrent st songID then NextSong dbOK st
        else some (st, noFx)) with _ | p
    · rw [hstep] at hr
      exact absurd hr (by simp)
    · rw [hstep] at hr
      rw [Option.some_bind] at hr
      have hp : p.1.playlist = st.playlist := by
        split at hstep
        · exact nextSong_playlist hstep
        · injection hstep with h2
          rw [← h2]
      split at hr
      · injection hr with h1
        rw [← h1]
        dsimp only
        rw [hp]
      · injection hr with h1
        rw [← h1] at hrerr
        exact absurd hrerr (by simp)

/-- Closed witness for `positions_after_mutations`: the scenario-B reorder
leaves positions dense. -/
theorem positions_after_mutations_witness :
    ordersDense ((ReorderPlaylist true st3 "t1" 2).get (by decide)).state.playlist := by
  exact (positions_after_mutations [] true st3 "t1" 2).1 0 item1
    ((ReorderPlaylist true st3 "t1" 2).get (by decide))
    (by decide) (by decide) (by decide) (by decide)
    ((Option.some_get (by decide)).symm)

/-- C6 counterexample: removing `t2` (not the current track) from
`[t1, t2, t3]` leaves positions `[0, 2]` for the surviving entries
`[t1, t3]` — entry `t3` sits at index 1 with `Order = 2`, so positions are
no longer dense. -/
theorem remove_leaves_stale_positions :
    (RemoveFromPlaylist true st3 "t2").map
        (fun r => r.state.playlist.map (fun it => (it.songID, it.order))) =
      some [("t1", 0), ("t3", 2)] ∧
    ¬ ordersDense [(⟨"t1", 0, some song1⟩ : PlaylistItem),
      ⟨"t3", 2, some song3⟩] := by
  exact ⟨by rfl, by decide⟩

/-- C5 (amended): a command rejected by its input validation (before any
mutation) leaves the state unchanged and issues no broadcast; a successful
`Seek` broadcasts the new state even when every persistence write fails;
but `ReorderPlaylist`, when its persistence write fails, returns the error
to the caller WITHOUT broadcasting although its in-memory mutation stands,
and `RemoveFromPlaylist` issues no broadcast of its own on success. -/
theorem broadcast_discipline (library : List Song) (dbOK : Bool)
    (st : GlobalState) (songID : String) (newIndex positionMs : Int) :
    (st.currentSong = none →
      Seek dbOK st positionMs =
        ⟨some "no song is currently playing", st, noFx⟩) ∧
    ((newIndex < 0 ∨ (st.playlist.length : Int) ≤ newIndex) →
      ReorderPlaylist dbOK st songID newIndex =
        some ⟨some "newIndex out of bounds", st, noFx⟩) ∧
    (¬(newIndex < 0 ∨ (st.playlist.length : Int) ≤ newIndex) →
      findSongIdx st.playlist songID = none →
      ReorderPlaylist dbOK st songID newIndex =
        some ⟨some "song not found in playlist", st, noFx⟩) ∧
    (findSongIdx st.playlist songID = none →
      PlaySpecificSong dbOK st songID =
        some ⟨some "song not found in playlist", st, noFx⟩) ∧
    (library.find? (fun s => s.id == songID) = none →
      AddToPlaylist library dbOK st songID =
        some ⟨some "song not found", st, noFx⟩) ∧
    (∀ song, st.currentSong = some song →
      (Seek false st positionMs).err = none ∧
      (Seek false st positionMs).fx.broadcasts =
        [(Seek false st positionMs).state] ∧
      (Seek false st positionMs).fx.dbWrites = []) ∧
    (∀ oldIndex item,
      ¬(newIndex < 0 ∨ (st.playlist.length : Int) ≤ newIndex) →
      findSongIdx st.playlist songID = some oldIndex →
      (oldIndex : Int) ≠ newIndex →
      st.playlist.get? oldIndex = some item →
      ReorderPlaylist false st songID newIndex =
        some ⟨some "db update failed",
          reorderApply st songID newIndex oldIndex item, noFx⟩) ∧
    (removeIsCurrent st songID = false →
      ∀ r, RemoveFromPlaylist dbOK st songID = some r → r.err = none →
        r.fx.broadcasts = []) := by
  refine ⟨?_, ?_, ?_, ?_, ?_, ?_, ?_, ?_⟩
  · intro hn
    simp [Seek, hn]
  · intro h
    unfold ReorderPlaylist
    rw [if_pos h]
  · intro hrange hfind
    unfold ReorderPlaylist
    rw [if_neg hrange, hfind]
  · intro hfind
    unfold PlaySpecificSong
    rw [hfind]
  · intro h
    unfold AddToPlaylist
    rw [h]
  · intro song hs
    simp only [Seek, hs]
    exact ⟨by trivial, by trivial, by simp [writeKey]⟩
  · intro oldIndex item hrange hfind hne hget
    unfold ReorderPlaylist
    rw [if_neg hrange, hfind]
    dsimp only
    rw [if_neg hne, hget]
    rfl
  · intro hnc r hr hrerr
    unfold RemoveFromPlaylist at hr
    rw [hnc] at hr
    simp only [Bool.false_eq_true, if_false, Option.some_bind] at hr
    split at hr
    · injection hr with h1
      rw [← h1]
      rfl
    · injection hr with h1
      rw [← h1] at hrerr
      exact absurd hrerr (by simp)

/-- Closed witness for `broadcast_discipline`: a successful `Seek` on `st3`
with every persistence write failing still broadcasts exactly its new
state. -/
theorem broadcast_discipline_witness :
    (Seek false st3 50).err = none ∧
    (Seek false st3 50).fx.broadcasts = [(Seek false st3 50).state] ∧
    (Seek false st3 50).fx.dbWrites = [] := by
  exact (broadcast_discipline [] false st3 "x" 0 50).2.2.2.2.2.1 song2 rfl

/-- C5 counterexample: `ReorderPlaylist` on `st3` with a failing
persistence write: the in-memory mutation succeeded (the playlist order
changed from `[t1,t2,t3]` to `[t2,t3,t1]`) yet NO broadcast was issued and
the command returned a failure — refuting "in-memory success is always
broadcast even when persistence fails". -/
theorem reorder_db_failure_no_broadcast :
    (ReorderPlaylist false st3 "t1" 2).map
        (fun r => (r.err.isSome, r.fx.broadcasts,
                   r.state.playlist.map PlaylistItem.songID)) =
      some (true, [], ["t2", "t3", "t1"]) ∧
    st3.playlist.map PlaylistItem.songID = ["t1", "t2", "t3"] := by
  exact ⟨by rfl, by rfl⟩

end Jukebox
